import Mathlib

/-!
Verification development for `twitch_parsing.py`: a chat-log statistics
pipeline (record parser, event classifiers, stream summarizer, revenue
model, batch aggregator).  Messages and file names are modelled as
`List Char`; the Python regexes (all linear patterns) are embedded as
executable scanners with Python `re` semantics: `re.match` anchors at the
start but lets a leading non-greedy `.*?` consume any non-newline prefix,
`re.search` tries every start position, `.` matches any char except
newline, `\d+` is a maximal digit run (backtracking cannot shorten it
because every following literal starts with a non-digit), and `\b` is a
word boundary.
-/

abbrev Str := List Char

/-- Value of a single ASCII digit character. -/
def digitVal (c : Char) : Nat := c.toNat - '0'.toNat

/-- Value of a digit string, as Python `int` reads a matched group. -/
def digitsToNat (l : Str) : Nat := l.foldl (fun acc c => 10 * acc + digitVal c) 0

/-- Match a literal at the head of the input, returning the rest on success. -/
def matchLit : Str → Str → Option Str
  | [], s => some s
  | _ :: _, [] => none
  | c :: lit, d :: s => if d = c then matchLit lit s else none

/-- Match the regex wildcard `.`: one character that is not a newline. -/
def matchDot : Str → Option Str
  | [] => none
  | c :: s => if c = '\n' then none else some s

/-- Split off the maximal leading digit run (the `\d+`/`\d*` behaviour). -/
def takeDigitRun : Str → Str × Str
  | [] => ([], [])
  | c :: s =>
    if c.isDigit then
      let (r, t) := takeDigitRun s
      (c :: r, t)
    else ([], c :: s)

/-- Scanner for `re.match` with a leading `.*?`: try the pattern body at
every start position in order, where the consumed prefix may not contain a
newline (the `.` of `.*?` cannot match one). -/
def scanDotStar (body : Str → Option α) : Str → Option α
  | [] => body []
  | c :: s =>
    match body (c :: s) with
    | some v => some v
    | none => if c = '\n' then none else scanDotStar body s

/-- Scanner for `re.search` of a pattern with no leading wildcard: try the
pattern body at every start position in order. -/
def scanSearch (body : Str → Option α) : Str → Option α
  | [] => body []
  | c :: s =>
    match body (c :: s) with
    | some v => some v
    | none => scanSearch body s

/-- Python `\w`: ASCII letters, digits and underscore (the inputs are ASCII). -/
def isWordChar (c : Char) : Bool := c.isAlphanum || c = '_'

/-!
## Event classifiers (`_get_donated_sub`, `_get_subscription_type`, `_get_bits`)
-/

/-- Body of `_GIFT_DONATION_REGEX` = `.*? gifted a Tier (\d) sub to` after the
leading `.*?`: the literal, one captured digit, and the closing literal. -/
def giftTail (s : Str) : Option Nat := do
  let s ← matchLit (" gifted a Tier ").toList s
  match s with
  | [] => none
  | d :: s2 =>
    if d.isDigit then do
      let _ ← matchLit (" sub to").toList s2
      pure (digitVal d)
    else none

/-- The `_GIFT_DONATION_REGEX.match` call of `_get_donated_sub`. -/
def giftMatch (msg : Str) : Option Nat := scanDotStar giftTail msg

/-- Python `_get_donated_sub`: the captured tier digit on a match, else 0. -/
def get_donated_sub (msg : Str) : Nat := (giftMatch msg).getD 0

/-- Body of `_SUBSCRIBE_PRIME_REGEX` =
`.*? subscribed with Prime. They've subscribed for (\d+) months!`. -/
def subPrimeTail (s : Str) : Option Nat := do
  let s ← matchLit (" subscribed with Prime").toList s
  let s ← matchDot s
  let s ← matchLit (" They've subscribed for ").toList s
  let (run, s) := takeDigitRun s
  if run.isEmpty then none
  else do
    let _ ← matchLit (" months!").toList s
    pure (digitsToNat run)

/-- Body of `_SUBSCRIBE_PRIME_WITHOUT_STREAK_REGEX` = `.*? subscribed with Prime.`. -/
def subPrimeBareTail (s : Str) : Option Unit := do
  let s ← matchLit (" subscribed with Prime").toList s
  let _ ← matchDot s
  pure ()

/-- Body of `_SUBSCRIBE_TIER_REGEX` = `.*? subscribed at Tier (\d). They've
subscribed for (\d+) months, currently on a (\d+) month streak!`.  Returns the
tier digit (group 1) and the cumulative months (group 2); the streak count
(group 3) is matched but not returned, as in the source. -/
def subTierStreakTail (s : Str) : Option (Char × Nat) := do
  let s ← matchLit (" subscribed at Tier ").toList s
  match s with
  | [] => none
  | d :: s2 =>
    if d.isDigit then do
      let s ← matchDot s2
      let s ← matchLit (" They've subscribed for ").toList s
      let (m, s) := takeDigitRun s
      if m.isEmpty then none
      else do
        let s ← matchLit (" months, currently on a ").toList s
        let (k, s) := takeDigitRun s
        if k.isEmpty then none
        else do
          let _ ← matchLit (" month streak!").toList s
          pure (d, digitsToNat m)
    else none

/-- Body of `_SUBSCRIBE_TIER_WITHOUT_STREAK_REGEX` =
`.*? subscribed at Tier (\d). They've subscribed for (\d+) months!`. -/
def subTierNoStreakTail (s : Str) : Option (Char × Nat) := do
  let s ← matchLit (" subscribed at Tier ").toList s
  match s with
  | [] => none
  | d :: s2 =>
    if d.isDigit then do
      let s ← matchDot s2
      let s ← matchLit (" They've subscribed for ").toList s
      let (m, s) := takeDigitRun s
      if m.isEmpty then none
      else do
        let _ ← matchLit (" months!").toList s
        pure (d, digitsToNat m)
    else none

/-- Body of `_SUBSCRIBE_TIER_FIRST_SUBSCRIPTION_REGEX` = `.*? subscribed at Tier (\d).`. -/
def subTierFirstTail (s : Str) : Option Char := do
  let s ← matchLit (" subscribed at Tier ").toList s
  match s with
  | [] => none
  | d :: s2 =>
    if d.isDigit then do
      let _ ← matchDot s2
      pure d
    else none

/-- The five `.match` calls of `_get_subscription_type`. -/
def subPrimeMatch (msg : Str) : Option Nat := scanDotStar subPrimeTail msg

/-- Second pattern of `_get_subscription_type` (bare Prime). -/
def subPrimeBareMatch (msg : Str) : Option Unit := scanDotStar subPrimeBareTail msg

/-- Third pattern of `_get_subscription_type` (Tier with streak clause). -/
def subTierStreakMatch (msg : Str) : Option (Char × Nat) := scanDotStar subTierStreakTail msg

/-- Fourth pattern of `_get_subscription_type` (Tier without streak clause). -/
def subTierNoStreakMatch (msg : Str) : Option (Char × Nat) := scanDotStar subTierNoStreakTail msg

/-- Fifth pattern of `_get_subscription_type` (first-time Tier subscription). -/
def subTierFirstMatch (msg : Str) : Option Char := scanDotStar subTierFirstTail msg

/-- Python f-string `f"tier_x"` built from the captured tier digit. -/
def tierName (d : Char) : String := "tier_" ++ String.mk [d]

/-- Python `_get_subscription_type`: the five patterns tried in priority
order, first match wins; patterns three and four share one branch as the
source's `or` expression does. -/
def get_subscription_type (msg : Str) : String × Nat :=
  match subPrimeMatch msg with
  | some m => ("prime", m)
  | none =>
    match subPrimeBareMatch msg with
    | some _ => ("prime", 0)
    | none =>
      match subTierStreakMatch msg with
      | some (d, m) => (tierName d, m)
      | none =>
        match subTierNoStreakMatch msg with
        | some (d, m) => (tierName d, m)
        | none =>
          match subTierFirstMatch msg with
          | some d => (tierName d, 0)
          | none => ("none", 0)

/-- Body of `_BITS_REGEX` = `\bCheer(\d+)\b` after the opening boundary: the
literal `Cheer`, a maximal digit run, and a closing word boundary. -/
def cheerTail (s : Str) : Option Nat := do
  let s ← matchLit ("Cheer").toList s
  let (run, s) := takeDigitRun s
  if run.isEmpty then none
  else
    match s with
    | [] => some (digitsToNat run)
    | c :: _ => if isWordChar c then none else some (digitsToNat run)

/-- Word-boundary check before `Cheer`: start of string or a preceding
non-word character. -/
def boundaryOk : Option Char → Bool
  | none => true
  | some p => !isWordChar p

/-- The `_BITS_REGEX.search` call: try every position, remembering the
previous character for the opening word boundary. -/
def bitsSearchAux (prev : Option Char) : Str → Option Nat
  | [] => if boundaryOk prev then cheerTail [] else none
  | c :: rest =>
    match (if boundaryOk prev then cheerTail (c :: rest) else none) with
    | some v => some v
    | none => bitsSearchAux (some c) rest

/-- Python `_get_bits`: the first `CheerN` token's value, else 0. -/
def get_bits (msg : Str) : Nat := (bitsSearchAux none msg).getD 0


/-!
## Revenue model (`calculate_revenue` and the module-level price table)
-/

/-- Count fields of the summary record that `calculate_revenue` reads. -/
structure Counts where
  donated_tier_1 : Nat
  donated_tier_2 : Nat
  donated_tier_3 : Nat
  subscribed_prime : Nat
  subscribed_tier_1 : Nat
  subscribed_tier_2 : Nat
  subscribed_tier_3 : Nat
  total_bits : Nat
deriving DecidableEq, Repr

/-- Source price `_PRICE_TIER_1 = 5`. -/
def PRICE_TIER_1 : ℚ := 5

/-- Source price `_PRICE_TIER_2 = 10`. -/
def PRICE_TIER_2 : ℚ := 10

/-- Source price `_PRICE_TIER_3 = 25`. -/
def PRICE_TIER_3 : ℚ := 25

/-- Source price `_PRICE_PRIME = _PRICE_TIER_1`. -/
def PRICE_PRIME : ℚ := PRICE_TIER_1

/-- Source price `_PRICE_BITS = 0.01`, as the exact rational 1/100. -/
def PRICE_BITS : ℚ := 1 / 100

/-- Python `calculate_revenue`: the tier/prime revenue sum halved plus the
bits revenue.  Arithmetic is modelled in `ℚ`; on every value the claims
mention the Python float computation is exact and agrees with `ℚ`. -/
def calculate_revenue (r : Counts) : ℚ :=
  let subscriptions_cost : ℚ :=
    r.donated_tier_1 * PRICE_TIER_1 +
    r.donated_tier_2 * PRICE_TIER_2 +
    r.donated_tier_3 * PRICE_TIER_3 +
    r.subscribed_prime * PRICE_PRIME +
    r.subscribed_tier_1 * PRICE_TIER_1 +
    r.subscribed_tier_2 * PRICE_TIER_2 +
    r.subscribed_tier_3 * PRICE_TIER_3
  subscriptions_cost / 2 + r.total_bits * PRICE_BITS

/-!
## Stream summarizer (`get_stream_summary` and its helpers)

The summarizer is modelled over the parsed rows of one stream (time,
lowercased user name, raw message), i.e. over the DataFrame that `read_csv`
plus the three `add_column_*` helpers produce; the classifier columns are
recomputed per row exactly as `df["message"].apply(...)` does.  Division
follows the source's runtime semantics: `len(df) / len(unique)` is Python
`int / int`, which raises `ZeroDivisionError` on a zero denominator, while
`revenue / stream_time_in_hours` and `revenue / unique_users` are numpy
`float64` divisions, which on a zero denominator silently produce an
infinity (or NaN for 0/0) instead of raising.  A zero-row stream never
reaches either division: `add_column_subscriptions` raises a `ValueError`
first, because `zip(*...)` over the empty message column yields nothing to
unpack into its two target columns.
-/

deriving instance DecidableEq for Except

/-- One parsed chat row. -/
structure ChatEvent where
  time : Int
  user_name : Str
  message : Str
deriving DecidableEq, Repr

/-- Numpy `float64` value as the summarizer can produce it: finite, an
infinity of either sign, or NaN. -/
inductive NpVal where
  | fin : ℚ → NpVal
  | pinf : NpVal
  | ninf : NpVal
  | nan : NpVal
deriving DecidableEq, Repr

/-- Numpy float division: finite quotient when the denominator is nonzero,
otherwise a signed infinity (warning only, no exception), and NaN for 0/0. -/
def npDiv (a b : ℚ) : NpVal :=
  if b ≠ 0 then NpVal.fin (a / b)
  else if 0 < a then NpVal.pinf
  else if a < 0 then NpVal.ninf
  else NpVal.nan

/-- Round to the nearest integer, ties to even (Python `round`). -/
def roundHalfEven (q : ℚ) : ℤ :=
  let f := ⌊q⌋
  let r := q - f
  if r < 1 / 2 then f
  else if 1 / 2 < r then f + 1
  else if f % 2 = 0 then f else f + 1

/-- Python `round(x, 1)`: one decimal place, ties to even. -/
def roundPy1 (q : ℚ) : ℚ := (roundHalfEven (q * 10) : ℚ) / 10

/-- Errors the summarizer can raise: `ValueError` from the tuple-unpacking
`zip(*...)` in `add_column_subscriptions` on a zero-row stream,
`AttributeError` when the file name regex finds no `chat_id` (the spec's
FileNamingError), and `ZeroDivisionError` from `num_messages_per_user` on a
zero-user input (the spec's DivisionUndefined; unreachable through
`get_stream_summary`, where the empty stream has already raised). -/
inductive SummaryError where
  | valueError : SummaryError
  | chatIdError : SummaryError
  | zeroDivisionError : SummaryError
deriving DecidableEq, Repr

/-- Number of distinct `user_name` values, i.e. `len(df.user_name.unique())`. -/
def uniqueUsers (events : List ChatEvent) : Nat :=
  ((events.map (fun e => e.user_name)).dedup).length

/-- Python `num_messages_per_user`: `len(df) / len(df.user_name.unique())`,
an `int / int` true division that raises `ZeroDivisionError` when there are
no users. -/
def num_messages_per_user (events : List ChatEvent) : Except SummaryError ℚ :=
  if uniqueUsers events = 0 then Except.error SummaryError.zeroDivisionError
  else Except.ok ((events.length : ℚ) / (uniqueUsers events : ℚ))

/-- Python `stream_time_in_seconds`: `df.time.max()` (the default 0 is never
used on the paths where the value matters, since an empty stream raises
before the maximum is consumed). -/
def stream_time_in_seconds (events : List ChatEvent) : Int :=
  ((events.map (fun e => e.time)).max?).getD 0

/-- Body of the file-name regex `twitch-chat-(\d+)_`: the literal, a maximal
digit run (backtracking cannot shorten it because `_` is not a digit), and
the underscore. -/
def chatIdTail (s : Str) : Option String := do
  let s ← matchLit ("twitch-chat-").toList s
  let (run, s) := takeDigitRun s
  if run.isEmpty then none
  else
    match s with
    | '_' :: _ => some (String.mk run)
    | _ => none

/-- The `re.search(r"twitch-chat-(\d+)_", file_path.name)` call. -/
def searchChatId (file_name : Str) : Option String := scanSearch chatIdTail file_name

/-- One row of the summary table (the dict built by `get_stream_summary`). -/
structure StreamSummary where
  chat_id : String
  messages_per_user : ℚ
  stream_time_in_hours : ℚ
  unique_users : Nat
  total_messages : Nat
  donated_tier_1 : Nat
  donated_tier_2 : Nat
  donated_tier_3 : Nat
  subscribed_prime : Nat
  subscribed_tier_1 : Nat
  subscribed_tier_2 : Nat
  subscribed_tier_3 : Nat
  total_bits : Nat
  revenue : ℚ
  revenue_per_hour : NpVal
  revenue_per_user : NpVal
deriving DecidableEq, Repr

/-- Python `get_stream_summary`, over a file name and the parsed rows of
that file.  The failure order follows the source: on a zero-row stream
`add_column_subscriptions` raises `ValueError` (the `zip(*...)` unpacking
of an empty column) before anything else; otherwise the `chat_id` regex is
evaluated first (raising on a mismatch), then `num_messages_per_user`
(which cannot raise here, the stream being nonempty); the two revenue
ratios use numpy division and never raise. -/
def get_stream_summary (file_name : Str) (events : List ChatEvent) :
    Except SummaryError StreamSummary :=
  if events.isEmpty then Except.error SummaryError.valueError
  else
  let stream_time_in_hours : ℚ := ((stream_time_in_seconds events : ℤ) : ℚ) / 3600
  match searchChatId file_name with
  | none => Except.error SummaryError.chatIdError
  | some cid =>
    match num_messages_per_user events with
    | Except.error e => Except.error e
    | Except.ok mpu =>
      let donated : Nat → Nat := fun k =>
        (events.filter (fun ev => get_donated_sub ev.message = k)).length
      let subs : String → Nat := fun t =>
        (events.filter (fun ev => (get_subscription_type ev.message).1 = t)).length
      let counts : Counts :=
        { donated_tier_1 := donated 1
          donated_tier_2 := donated 2
          donated_tier_3 := donated 3
          subscribed_prime := subs "prime"
          subscribed_tier_1 := subs "tier_1"
          subscribed_tier_2 := subs "tier_2"
          subscribed_tier_3 := subs "tier_3"
          total_bits := (events.map (fun ev => get_bits ev.message)).sum }
      let revenue := calculate_revenue counts
      Except.ok
        { chat_id := cid
          messages_per_user := roundPy1 mpu
          stream_time_in_hours := roundPy1 stream_time_in_hours
          unique_users := uniqueUsers events
          total_messages := events.length
          donated_tier_1 := counts.donated_tier_1
          donated_tier_2 := counts.donated_tier_2
          donated_tier_3 := counts.donated_tier_3
          subscribed_prime := counts.subscribed_prime
          subscribed_tier_1 := counts.subscribed_tier_1
          subscribed_tier_2 := counts.subscribed_tier_2
          subscribed_tier_3 := counts.subscribed_tier_3
          total_bits := counts.total_bits
          revenue := revenue
          revenue_per_hour := npDiv revenue stream_time_in_hours
          revenue_per_user := npDiv revenue ((uniqueUsers events : ℕ) : ℚ) }

/-!
## Record parser (`read_csv` line handling)

The model covers the line-structure part of `read_csv`: splitting each line
on its first three commas, stripping the trailing newline from the last
header, and discarding the first and last two characters of each data row's
last field (the `"message"\n` wrapper).  The subsequent DataFrame steps
(numeric conversion of the `time` column, lowercasing `user_name`) act on
the columns this produces and are consumed by the summarizer model through
`ChatEvent`.
-/

/-- Split at the first comma: field before it and, when present, the rest. -/
def breakComma : Str → Str × Option Str
  | [] => ([], none)
  | c :: s =>
    if c = ',' then ([], some s)
    else
      let (f, r) := breakComma s
      (c :: f, r)

/-- Python `line.split(',', n)`: at most `n` splits, the remainder (commas
included) stays one field. -/
def pySplitComma : Nat → Str → List Str
  | 0, s => [s]
  | n + 1, s =>
    match breakComma s with
    | (f, none) => [f]
    | (f, some r) => f :: pySplitComma n r

/-- Python slice `l[1:-2]`: drop the first character and the last two. -/
def pySlice1m2 (l : Str) : Str := (l.drop 1).take (l.length - 3)

/-- Python `str.strip()`: drop leading and trailing whitespace. -/
def pyStrip (l : Str) : Str :=
  ((l.dropWhile Char.isWhitespace).reverse.dropWhile Char.isWhitespace).reverse

/-- Replace the last element of a nonempty list in place, as the source's
`line[-1] = ...` and `headers[-1] = ...` assignments do. -/
def updateLast (f : Str → Str) : List Str → List Str
  | [] => []
  | [a] => [f a]
  | a :: rest => a :: updateLast f rest

/-- Python `read_csv`, on the file's lines (each still carrying its trailing
newline, as iterating an open file yields them): headers from the first line
with the last header stripped, and every data row split on its first three
commas with the last field's `"..."\n` wrapper sliced off.  An input with no
lines at all makes `lines[0]` raise, modelled as `none`. -/
def read_csv (input : List Str) : Option (List Str × List (List Str)) :=
  match input.map (pySplitComma 3) with
  | [] => none
  | header :: rows =>
    some (updateLast pyStrip header, rows.map (updateLast pySlice1m2))

/-!
## Batch aggregator (`create_summary_table_*`, `calculate_average`)

File discovery (`Path.rglob`) is external I/O; the aggregator is modelled
over the discovered list of files, each a file name plus its parsed rows.
-/

/-- One discovered stream file: its name and its parsed rows. -/
structure StreamFile where
  name : Str
  events : List ChatEvent
deriving DecidableEq, Repr

/-- Python `create_summary_table_from_folder`: the list comprehension
`[get_stream_summary(file) for file in files]`, whose first failing file
aborts the whole table. -/
def create_summary_table_from_folder : List StreamFile → Except SummaryError (List StreamSummary)
  | [] => Except.ok []
  | f :: fs => do
    let s ← get_stream_summary f.name f.events
    let rest ← create_summary_table_from_folder fs
    pure (s :: rest)

/-- Python `create_summary_table_from_multiple_folders`: `pd.concat` of the
per-folder tables, in folder order. -/
def create_summary_table_from_multiple_folders :
    List (List StreamFile) → Except SummaryError (List StreamSummary)
  | [] => Except.ok []
  | fo :: fos => do
    let t ← create_summary_table_from_folder fo
    let rest ← create_summary_table_from_multiple_folders fos
    pure (t ++ rest)

/-- Arithmetic mean of a numeric column, `df[column].mean()` (the table the
claims aggregate is nonempty, so the division is by a positive count). -/
def qMean (l : List ℚ) : ℚ := l.sum / (l.length : ℚ)

/-- Test for the NaN value of `NpVal`. -/
def npIsNan : NpVal → Bool
  | NpVal.nan => true
  | _ => false

/-- Numpy float addition on the modelled values. -/
def npAdd : NpVal → NpVal → NpVal
  | NpVal.nan, _ => NpVal.nan
  | _, NpVal.nan => NpVal.nan
  | NpVal.pinf, NpVal.ninf => NpVal.nan
  | NpVal.ninf, NpVal.pinf => NpVal.nan
  | NpVal.pinf, _ => NpVal.pinf
  | _, NpVal.pinf => NpVal.pinf
  | NpVal.ninf, _ => NpVal.ninf
  | _, NpVal.ninf => NpVal.ninf
  | NpVal.fin a, NpVal.fin b => NpVal.fin (a + b)

/-- Division of a summed column by a (positive) row count. -/
def npDivNat (v : NpVal) (n : Nat) : NpVal :=
  match v with
  | NpVal.fin a => if n = 0 then NpVal.nan else NpVal.fin (a / (n : ℚ))
  | x => x

/-- Pandas `Series.mean()` on a float column: NaN entries are skipped
(`skipna`), the rest are summed and divided by their count; an all-NaN
column yields NaN. -/
def npMean (l : List NpVal) : NpVal :=
  let l2 := l.filter (fun v => !npIsNan v)
  if l2.length = 0 then NpVal.nan
  else npDivNat (l2.foldl npAdd (NpVal.fin 0)) l2.length

/-- The appended average row built by `calculate_average`: every numeric
column carries its mean, the non-numeric `chat_id` column (string dtype,
`is_numeric_dtype` false) carries the empty-string placeholder. -/
structure AverageRow where
  chat_id : String
  messages_per_user : ℚ
  stream_time_in_hours : ℚ
  unique_users : ℚ
  total_messages : ℚ
  donated_tier_1 : ℚ
  donated_tier_2 : ℚ
  donated_tier_3 : ℚ
  subscribed_prime : ℚ
  subscribed_tier_1 : ℚ
  subscribed_tier_2 : ℚ
  subscribed_tier_3 : ℚ
  total_bits : ℚ
  revenue : ℚ
  revenue_per_hour : NpVal
  revenue_per_user : NpVal
deriving DecidableEq, Repr

/-- Python `calculate_average`, column by column over the summary table. -/
def calculate_average (table : List StreamSummary) : AverageRow :=
  { chat_id := ""
    messages_per_user := qMean (table.map (fun s => s.messages_per_user))
    stream_time_in_hours := qMean (table.map (fun s => s.stream_time_in_hours))
    unique_users := qMean (table.map (fun s => (s.unique_users : ℚ)))
    total_messages := qMean (table.map (fun s => (s.total_messages : ℚ)))
    donated_tier_1 := qMean (table.map (fun s => (s.donated_tier_1 : ℚ)))
    donated_tier_2 := qMean (table.map (fun s => (s.donated_tier_2 : ℚ)))
    donated_tier_3 := qMean (table.map (fun s => (s.donated_tier_3 : ℚ)))
    subscribed_prime := qMean (table.map (fun s => (s.subscribed_prime : ℚ)))
    subscribed_tier_1 := qMean (table.map (fun s => (s.subscribed_tier_1 : ℚ)))
    subscribed_tier_2 := qMean (table.map (fun s => (s.subscribed_tier_2 : ℚ)))
    subscribed_tier_3 := qMean (table.map (fun s => (s.subscribed_tier_3 : ℚ)))
    total_bits := qMean (table.map (fun s => (s.total_bits : ℚ)))
    revenue := qMean (table.map (fun s => s.revenue))
    revenue_per_hour := npMean (table.map (fun s => s.revenue_per_hour))
    revenue_per_user := npMean (table.map (fun s => s.revenue_per_user)) }

/-!
## Declarative pattern predicates

Declarative restatements of "the message matches the regex", used to state
the classifier claims: a match of the anchored gift pattern is a
decomposition into an arbitrary newline-free prefix, the literals, and the
captured groups; a match of the searched `\bCheer(\d+)\b` pattern is a
decomposition whose cut points sit on word boundaries.
-/

/-- A decomposition witnessing a match of `.*? gifted a Tier (\d) sub to`
under `re.match`. -/
def giftDecomp (msg : Str) : Prop :=
  ∃ p d s, msg = p ++ (" gifted a Tier ").toList ++ [d] ++ (" sub to").toList ++ s ∧
    d.isDigit ∧ '\n' ∉ p

/-- A decomposition witnessing a match of `\bCheer(\d+)\b` under
`re.search`: nonempty all-digit run, a non-word (or absent) character on
each side. -/
def cheerDecomp (msg : Str) : Prop :=
  ∃ p D s, msg = p ++ ("Cheer").toList ++ D ++ s ∧ D ≠ [] ∧ (∀ c ∈ D, c.isDigit) ∧
    (p = [] ∨ ∃ q c, p = q ++ [c] ∧ isWordChar c = false) ∧
    (s = [] ∨ ∃ c t, s = c :: t ∧ isWordChar c = false)

/-- Character immediately preceding the position reached after reading `p`,
when the position before `p` was preceded by `prev`; drives the word
boundary of the bits search. -/
def prevCharAt (prev : Option Char) : Str → Option Char
  | [] => prev
  | c :: p => prevCharAt (some c) p

/-!
## Claim theorems
-/

/-- C1: the five subscription patterns are tried in strict priority order
with first match winning: the Tier-with-streak message classifies from the
streak pattern as `("tier_2", 5)` — the streak value 3 is matched but
discarded and the cumulative months 5 kept — and does not fall through to
the first-time rule, which would also have matched (with tenure 0); the
no-streak pattern does not match this message at all. -/
theorem subscription_priority_streak_message :
    get_subscription_type
        ("X subscribed at Tier 2. They've subscribed for 5 months, currently on a 3 month streak!").toList
      = ("tier_2", 5) ∧
    subTierStreakMatch
        ("X subscribed at Tier 2. They've subscribed for 5 months, currently on a 3 month streak!").toList
      = some ('2', 5) ∧
    subTierFirstMatch
        ("X subscribed at Tier 2. They've subscribed for 5 months, currently on a 3 month streak!").toList
      = some '2' ∧
    subTierNoStreakMatch
        ("X subscribed at Tier 2. They've subscribed for 5 months, currently on a 3 month streak!").toList
      = none := by
  refine ⟨by decide, by decide, by decide, by decide⟩

/-- C2: `calculate_revenue` is the pure function of the subscription/gift
counts and the bits total given by the fixed price table (tier 1 = 5,
tier 2 = 10, tier 3 = 25, prime = 5, 0.01 per bit): the tier/prime revenue
sum is halved and the (unhalved) bits revenue added; on the counts
{donated tier 1: 2, prime subs: 1, rest 0, bits 100} it yields 8.5. -/
theorem calculate_revenue_spec :
    (∀ r : Counts, calculate_revenue r =
      ((r.donated_tier_1 : ℚ) * 5 + (r.donated_tier_2 : ℚ) * 10 +
        (r.donated_tier_3 : ℚ) * 25 + (r.subscribed_prime : ℚ) * 5 +
        (r.subscribed_tier_1 : ℚ) * 5 + (r.subscribed_tier_2 : ℚ) * 10 +
        (r.subscribed_tier_3 : ℚ) * 25) / 2 + (r.total_bits : ℚ) * (1 / 100)) ∧
    calculate_revenue ⟨2, 0, 0, 1, 0, 0, 0, 100⟩ = 8.5 := by
  constructor
  · intro r
    simp [calculate_revenue, PRICE_TIER_1, PRICE_TIER_2, PRICE_TIER_3, PRICE_PRIME, PRICE_BITS]
  · norm_num [calculate_revenue, PRICE_TIER_1, PRICE_TIER_2, PRICE_TIER_3, PRICE_PRIME, PRICE_BITS]

/-- C2 witness: the revenue formula and the round-trip value at the
concrete counts of the claim. -/
theorem calculate_revenue_spec_witness :
    calculate_revenue ⟨2, 0, 0, 1, 0, 0, 0, 100⟩ = 8.5 :=
  calculate_revenue_spec.2

/-- C3 (failing input): a stream with one chat row at time 0 and a
`Cheer100` donation has zero stream time but positive revenue; the
summarizer does not raise — it returns a summary row whose
`revenue_per_hour` is a silently produced infinity.  A zero-row (hence
zero-distinct-user) stream does abort with a raised error, but it is the
`ValueError` of the `zip(*...)` unpacking in `add_column_subscriptions`,
raised before the chat-id regex or `num_messages_per_user` ever run — not
the DivisionUndefined report the claim requires. -/
theorem zero_time_stream_puts_infinity_in_output :
    (get_stream_summary ("twitch-chat-7_x.csv").toList
        [⟨0, ("alice").toList, ("Cheer100").toList⟩]).map
      (fun s => (s.revenue_per_hour, s.revenue)) = Except.ok (NpVal.pinf, 1) ∧
    get_stream_summary ("twitch-chat-7_x.csv").toList [] =
      Except.error SummaryError.valueError := by
  constructor
  · have h1 : searchChatId ("twitch-chat-7_x.csv").toList = some "7" := by decide
    have h2 : num_messages_per_user [⟨0, ("alice").toList, ("Cheer100").toList⟩] =
        Except.ok 1 := by
      have hu : uniqueUsers [⟨0, ("alice").toList, ("Cheer100").toList⟩] = 1 := by decide
      rw [num_messages_per_user, hu]; norm_num
    have hst : stream_time_in_seconds [(⟨0, ("alice").toList, ("Cheer100").toList⟩ : ChatEvent)]
        = 0 := by decide
    have hd : get_donated_sub ("Cheer100").toList = 0 := by decide
    have hs : (get_subscription_type ("Cheer100").toList).1 = "none" := by decide
    have hb : get_bits ("Cheer100").toList = 100 := by decide
    have e1 : decide (("none" : String) = "prime") = false := by decide
    have e2 : decide (("none" : String) = "tier_1") = false := by decide
    have e3 : decide (("none" : String) = "tier_2") = false := by decide
    have e4 : decide (("none" : String) = "tier_3") = false := by decide
    rw [get_stream_summary, if_neg (by decide)]
    simp only [h1, h2, hst, Except.map, List.filter, List.map, hd, hs, hb,
      e1, e2, e3, e4]
    norm_num [calculate_revenue, PRICE_TIER_1, PRICE_TIER_2, PRICE_TIER_3, PRICE_PRIME,
      PRICE_BITS, npDiv]
  · rw [get_stream_summary, if_pos (by decide)]

/-- C4: a message on which none of the five subscription patterns matches
classifies as `("none", 0)` — no error, no other value. -/
theorem unmatched_message_classifies_none (msg : Str)
    (h1 : subPrimeMatch msg = none) (h2 : subPrimeBareMatch msg = none)
    (h3 : subTierStreakMatch msg = none) (h4 : subTierNoStreakMatch msg = none)
    (h5 : subTierFirstMatch msg = none) :
    get_subscription_type msg = ("none", 0) := by
  simp [get_subscription_type, h1, h2, h3, h4, h5]

/-- C4 witness: a concrete non-subscription message on which all five
patterns fail and the classifier returns `("none", 0)`. -/
theorem unmatched_message_classifies_none_witness :
    subPrimeMatch ("nice shot! Cheer10").toList = none ∧
    subPrimeBareMatch ("nice shot! Cheer10").toList = none ∧
    subTierStreakMatch ("nice shot! Cheer10").toList = none ∧
    subTierNoStreakMatch ("nice shot! Cheer10").toList = none ∧
    subTierFirstMatch ("nice shot! Cheer10").toList = none ∧
    get_subscription_type ("nice shot! Cheer10").toList = ("none", 0) :=
  ⟨by decide, by decide, by decide, by decide, by decide,
    unmatched_message_classifies_none _ (by decide) (by decide) (by decide) (by decide) (by decide)⟩

/-- Concrete summary used by C10: one `Cheer100` row at time 1000 yields
revenue 1, reported stream time 3/10 (rounded from 5/18), and
`revenue_per_hour` 18/5 computed from the unrounded 5/18. -/
theorem summary_ex9 :
    get_stream_summary ("twitch-chat-9_y.csv").toList
        [⟨1000, ("alice").toList, ("Cheer100").toList⟩] =
      Except.ok ⟨"9", 1, 3 / 10, 1, 1, 0, 0, 0, 0, 0, 0, 0, 100, 1,
        NpVal.fin (18 / 5), NpVal.fin 1⟩ := by
  have hu : uniqueUsers [(⟨1000, ("alice").toList, ("Cheer100").toList⟩ : ChatEvent)] = 1 := by
    decide
  have h1 : searchChatId ("twitch-chat-9_y.csv").toList = some "9" := by decide
  have h2 : num_messages_per_user [⟨1000, ("alice").toList, ("Cheer100").toList⟩] =
      Except.ok 1 := by
    rw [num_messages_per_user, hu]; norm_num
  have hst : stream_time_in_seconds
      [(⟨1000, ("alice").toList, ("Cheer100").toList⟩ : ChatEvent)] = 1000 := by decide
  have hd : get_donated_sub ("Cheer100").toList = 0 := by decide
  have hs : (get_subscription_type ("Cheer100").toList).1 = "none" := by decide
  have hb : get_bits ("Cheer100").toList = 100 := by decide
  have e1 : decide (("none" : String) = "prime") = false := by decide
  have e2 : decide (("none" : String) = "tier_1") = false := by decide
  have e3 : decide (("none" : String) = "tier_2") = false := by decide
  have e4 : decide (("none" : String) = "tier_3") = false := by decide
  rw [get_stream_summary, if_neg (by decide)]
  simp only [h1, h2, hst, hu, List.filter, List.map, hd, hs, hb,
    e1, e2, e3, e4]
  norm_num [calculate_revenue, PRICE_TIER_1, PRICE_TIER_2, PRICE_TIER_3, PRICE_PRIME,
    PRICE_BITS, npDiv, roundPy1, roundHalfEven]

/-- C10: in every successfully produced summary, `revenue_per_hour` divides
the revenue by the unrounded stream time (max time / 3600) and
`revenue_per_user` divides it by the exact distinct-user count, while the
reported `stream_time_in_hours` and `messages_per_user` fields are rounded
to one decimal place; consequently, on the concrete one-row `Cheer100`
stream at time 1000, `revenue_per_hour` times the reported
`stream_time_in_hours` does not recover the revenue. -/
theorem ratios_use_unrounded_time :
    (∀ (file_name : Str) (events : List ChatEvent) (s : StreamSummary),
      get_stream_summary file_name events = Except.ok s →
      s.revenue_per_hour =
        npDiv s.revenue (((stream_time_in_seconds events : ℤ) : ℚ) / 3600) ∧
      s.revenue_per_user = npDiv s.revenue ((uniqueUsers events : ℚ)) ∧
      s.stream_time_in_hours =
        roundPy1 (((stream_time_in_seconds events : ℤ) : ℚ) / 3600) ∧
      s.messages_per_user =
        roundPy1 ((events.length : ℚ) / (uniqueUsers events : ℚ))) ∧
    (get_stream_summary ("twitch-chat-9_y.csv").toList
        [⟨1000, ("alice").toList, ("Cheer100").toList⟩]).map
      (fun s => (s.revenue_per_hour, s.stream_time_in_hours, s.revenue)) =
      Except.ok (NpVal.fin (18 / 5), 3 / 10, 1) ∧
    (18 / 5 : ℚ) * (3 / 10) ≠ 1 := by
  refine ⟨?_, ?_, by norm_num⟩
  · intro fn events s h
    cases events with
    | nil =>
      rw [get_stream_summary, if_pos (by decide)] at h
      exact Except.noConfusion h
    | cons e es =>
      rw [get_stream_summary, if_neg (by simp)] at h
      rcases hc : searchChatId fn with _ | cid
      · simp only [hc] at h
        exact Except.noConfusion h
      · simp only [hc] at h
        rcases hm : num_messages_per_user (e :: es) with e' | mpu
        · simp only [hm] at h
          exact Except.noConfusion h
        · simp only [hm] at h
          rw [Except.ok.injEq] at h
          subst h
          refine ⟨rfl, rfl, rfl, ?_⟩
          have hmpu : mpu = ((e :: es).length : ℚ) / (uniqueUsers (e :: es) : ℚ) := by
            rw [num_messages_per_user] at hm
            by_cases hz : uniqueUsers (e :: es) = 0
            · rw [if_pos hz] at hm; exact Except.noConfusion hm
            · rw [if_neg hz] at hm
              exact ((Except.ok.injEq _ _).mp hm).symm
          rw [hmpu]
  · rw [summary_ex9]; rfl

/-- C10 witness: the general ratio property instantiated at the concrete
`Cheer100` stream of `summary_ex9`. -/
theorem ratios_use_unrounded_time_witness :
    (⟨"9", 1, 3 / 10, 1, 1, 0, 0, 0, 0, 0, 0, 0, 100, 1, NpVal.fin (18 / 5),
        NpVal.fin 1⟩ : StreamSummary).revenue_per_hour =
      npDiv 1 (((stream_time_in_seconds
        [⟨1000, ("alice").toList, ("Cheer100").toList⟩] : ℤ) : ℚ) / 3600) :=
  (ratios_use_unrounded_time.1 ("twitch-chat-9_y.csv").toList
    [⟨1000, ("alice").toList, ("Cheer100").toList⟩] _ summary_ex9).1

/-- Characterization of literal matching: success is exactly a prefix split. -/
theorem matchLit_eq_some_iff (lit : Str) :
    ∀ s r, matchLit lit s = some r ↔ s = lit ++ r := by
  induction lit with
  | nil => intro s r; simp [matchLit]
  | cons c lit ih =>
    intro s r
    cases s with
    | nil => simp [matchLit]
    | cons d t =>
      simp only [matchLit, List.cons_append, List.cons.injEq]
      by_cases h : d = c
      · subst h; simp [ih]
      · simp [h]

/-- Matching a literal against itself plus a remainder succeeds. -/
theorem matchLit_self_append (lit r : Str) : matchLit lit (lit ++ r) = some r :=
  (matchLit_eq_some_iff lit (lit ++ r) r).mpr rfl

/-- The `.*?`-scanner fails exactly when the body fails at every position
reachable without the non-greedy prefix crossing a newline. -/
theorem scanDotStar_eq_none_iff (body : Str → Option α) :
    ∀ s, scanDotStar body s = none ↔
      ∀ p t, s = p ++ t → '\n' ∉ p → body t = none := by
  intro s
  induction s with
  | nil =>
    constructor
    · intro h p t hpt _
      rcases List.append_eq_nil.mp hpt.symm with ⟨hp, ht⟩
      subst hp; subst ht; exact h
    · intro h; exact h [] [] rfl (by simp)
  | cons c s ih =>
    rcases hb : body (c :: s) with _ | v
    · by_cases hc : c = '\n'
      · subst hc
        simp only [scanDotStar, hb, if_pos rfl]
        constructor
        · intro _ p t hpt hnp
          cases p with
          | nil => rw [List.nil_append] at hpt; rw [← hpt]; exact hb
          | cons a p' =>
            rw [List.cons_append] at hpt
            injection hpt with h1 _
            exact absurd (List.mem_cons_self a p') (h1 ▸ hnp)
        · intro _; rfl
      · simp only [scanDotStar, hb, if_neg hc, ih]
        constructor
        · intro h p t hpt hnp
          cases p with
          | nil => rw [List.nil_append] at hpt; rw [← hpt]; exact hb
          | cons a p' =>
            rw [List.cons_append] at hpt
            injection hpt with h1 h2
            exact h p' t h2 (fun hm => hnp (h1 ▸ List.mem_cons_of_mem a hm))
        · intro h p t hpt hnp
          refine h (c :: p) t (by rw [List.cons_append, hpt]) ?_
          intro hm
          rcases List.mem_cons.mp hm with h1 | h1
          · exact hc h1.symm
          · exact hnp h1
    · simp only [scanDotStar, hb]
      constructor
      · intro h; exact Option.noConfusion h
      · intro h
        have h0 := h [] (c :: s) rfl (by simp)
        rw [hb] at h0
        exact Option.noConfusion h0

/-- Soundness of the `.*?`-scanner: a match comes from some reachable
position where the body succeeds with the same value. -/
theorem scanDotStar_eq_some_sound (body : Str → Option α) :
    ∀ s v, scanDotStar body s = some v →
      ∃ p t, s = p ++ t ∧ '\n' ∉ p ∧ body t = some v := by
  intro s
  induction s with
  | nil => intro v h; exact ⟨[], [], rfl, by simp, h⟩
  | cons c s ih =>
    intro v h
    rcases hb : body (c :: s) with _ | w
    · simp only [scanDotStar, hb] at h
      by_cases hc : c = '\n'
      · rw [if_pos hc] at h; exact Option.noConfusion h
      · rw [if_neg hc] at h
        obtain ⟨p, t, hpt, hnp, hbt⟩ := ih v h
        refine ⟨c :: p, t, by rw [List.cons_append, hpt], ?_, hbt⟩
        intro hm
        rcases List.mem_cons.mp hm with h1 | h1
        · exact hc h1.symm
        · exact hnp h1
    · simp only [scanDotStar, hb] at h
      injection h with h1
      subst h1
      exact ⟨[], c :: s, rfl, by simp, hb⟩

/-- Characterization of the gift-pattern body. -/
theorem giftTail_eq_some_iff (t : Str) (n : Nat) :
    giftTail t = some n ↔
      ∃ d s, t = (" gifted a Tier ").toList ++ [d] ++ (" sub to").toList ++ s ∧
        d.isDigit ∧ n = digitVal d := by
  constructor
  · intro h
    rcases h1 : matchLit (" gifted a Tier ").toList t with _ | s1
    · simp only [giftTail, h1, Option.bind_eq_bind, Option.none_bind] at h
      exact Option.noConfusion h
    · cases s1 with
      | nil =>
        simp only [giftTail, h1, Option.bind_eq_bind, Option.some_bind] at h
        exact Option.noConfusion h
      | cons d s2 =>
        simp only [giftTail, h1, Option.bind_eq_bind, Option.some_bind] at h
        by_cases hd : d.isDigit
        · rw [if_pos hd] at h
          rcases h2 : matchLit (" sub to").toList s2 with _ | s3
          · rw [h2] at h
            simp only [Option.bind_eq_bind, Option.none_bind] at h
            exact Option.noConfusion h
          · rw [h2] at h
            simp only [Option.bind_eq_bind, Option.some_bind, Option.pure_def] at h
            injection h with h3
            refine ⟨d, s3, ?_, hd, h3.symm⟩
            have ht1 := (matchLit_eq_some_iff _ _ _).mp h1
            have ht2 := (matchLit_eq_some_iff _ _ _).mp h2
            rw [ht1, ht2]
            simp
        · rw [if_neg hd] at h
          exact Option.noConfusion h
  · rintro ⟨d, s, ht, hd, hn⟩
    subst ht; subst hn
    have hassoc : (" gifted a Tier ").toList ++ [d] ++ (" sub to").toList ++ s =
        (" gifted a Tier ").toList ++ (d :: ((" sub to").toList ++ s)) := by simp
    rw [hassoc]
    simp only [giftTail, matchLit_self_append, Option.bind_eq_bind, Option.some_bind]
    rw [if_pos hd]
    simp only [Option.bind_eq_bind, Option.some_bind, Option.pure_def]

/-- C5: the gift-sub classifier returns 0 exactly on messages with no
anchored gift-pattern decomposition, and on a matching message it returns
the captured tier digit of a valid decomposition; concretely,
`X gifted a Tier 3 sub to Y` yields 3 and a phrase-free message yields 0. -/
theorem donated_sub_spec :
    (∀ msg : Str, ¬giftDecomp msg → get_donated_sub msg = 0) ∧
    (∀ msg : Str, giftDecomp msg →
      ∃ p d s, msg = p ++ (" gifted a Tier ").toList ++ [d] ++ (" sub to").toList ++ s ∧
        d.isDigit ∧ '\n' ∉ p ∧ get_donated_sub msg = digitVal d) ∧
    get_donated_sub ("X gifted a Tier 3 sub to Y").toList = 3 ∧
    get_donated_sub ("that was unlucky").toList = 0 := by
  refine ⟨?_, ?_, by decide, by decide⟩
  · intro msg hnd
    rcases hg : giftMatch msg with _ | n
    · rw [get_donated_sub, hg]; rfl
    · exfalso
      obtain ⟨p, t, hpt, hnp, hbt⟩ := scanDotStar_eq_some_sound giftTail msg n hg
      obtain ⟨d, s, hts, hd, _⟩ := (giftTail_eq_some_iff t n).mp hbt
      refine hnd ⟨p, d, s, ?_, hd, hnp⟩
      rw [hpt, hts]; simp
  · intro msg hdec
    rcases hg : giftMatch msg with _ | n
    · exfalso
      obtain ⟨p, d, s, hmsg, hd, hnp⟩ := hdec
      have hfail := (scanDotStar_eq_none_iff giftTail msg).mp hg p
        ((" gifted a Tier ").toList ++ [d] ++ (" sub to").toList ++ s)
        (by rw [hmsg]; simp) hnp
      have hok : giftTail ((" gifted a Tier ").toList ++ [d] ++ (" sub to").toList ++ s) =
          some (digitVal d) :=
        (giftTail_eq_some_iff _ _).mpr ⟨d, s, rfl, hd, rfl⟩
      rw [hok] at hfail
      exact Option.noConfusion hfail
    · obtain ⟨p', t', hpt', hnp', hbt'⟩ := scanDotStar_eq_some_sound giftTail msg n hg
      obtain ⟨d', s', hts', hd', hn'⟩ := (giftTail_eq_some_iff t' n).mp hbt'
      refine ⟨p', d', s', ?_, hd', hnp', ?_⟩
      · rw [hpt', hts']; simp
      · rw [get_donated_sub, hg, hn']; rfl

/-- C5 witness: the no-decomposition branch applied at a concrete short
message (too short to contain the pattern). -/
theorem donated_sub_spec_witness : get_donated_sub ("gg").toList = 0 :=
  donated_sub_spec.1 ("gg").toList (by
    rintro ⟨p, d, s, hmsg, _, _⟩
    have hl := congrArg List.length hmsg
    have l0 : ("gg").toList.length = 2 := by decide
    have l1 : (" gifted a Tier ").toList.length = 15 := by decide
    have l2 : (" sub to").toList.length = 7 := by decide
    simp only [List.length_append, l1, l2, List.length_cons, List.length_nil] at hl
    rw [l0] at hl
    omega)

/-- Unfolding of the digit-run splitter on a digit head. -/
theorem takeDigitRun_cons_digit (c : Char) (s : Str) (hc : c.isDigit) :
    takeDigitRun (c :: s) = (c :: (takeDigitRun s).1, (takeDigitRun s).2) := by
  simp [takeDigitRun, hc]

/-- Unfolding of the digit-run splitter on a non-digit head. -/
theorem takeDigitRun_cons_nondigit (c : Char) (s : Str) (hc : c.isDigit = false) :
    takeDigitRun (c :: s) = ([], c :: s) := by
  simp [takeDigitRun, hc]

/-- The digit-run splitter returns an all-digit run, a split of its input,
and a remainder that is empty or starts with a non-digit. -/
theorem takeDigitRun_spec : ∀ t : Str,
    (∀ c ∈ (takeDigitRun t).1, c.isDigit) ∧
    t = (takeDigitRun t).1 ++ (takeDigitRun t).2 ∧
    ((takeDigitRun t).2 = [] ∨
      ∃ c u, (takeDigitRun t).2 = c :: u ∧ c.isDigit = false) := by
  intro t
  induction t with
  | nil => exact ⟨by simp [takeDigitRun], by simp [takeDigitRun], Or.inl rfl⟩
  | cons c s ih =>
    by_cases hc : c.isDigit
    · rw [takeDigitRun_cons_digit c s hc]
      refine ⟨?_, ?_, ih.2.2⟩
      · intro d hd
        rcases List.mem_cons.mp hd with h | h
        · exact h ▸ hc
        · exact ih.1 d h
      · rw [List.cons_append, ← ih.2.1]
    · rw [takeDigitRun_cons_nondigit c s (by simpa using hc)]
      exact ⟨by simp, by simp, Or.inr ⟨c, s, rfl, by simpa using hc⟩⟩

/-- The digit-run splitter cuts exactly at a prepared split point. -/
theorem takeDigitRun_append (D s : Str) (hD : ∀ c ∈ D, c.isDigit)
    (hs : s = [] ∨ ∃ c u, s = c :: u ∧ c.isDigit = false) :
    takeDigitRun (D ++ s) = (D, s) := by
  induction D with
  | nil =>
    rcases hs with h | ⟨c, u, h, hc⟩
    · subst h; rfl
    · subst h; rw [List.nil_append, takeDigitRun_cons_nondigit c u hc]
  | cons d D ih =>
    have hd : d.isDigit := hD d (List.mem_cons_self d D)
    rw [List.cons_append, takeDigitRun_cons_digit d (D ++ s) hd,
      ih (fun c hc => hD c (List.mem_cons_of_mem d hc))]

/-- Digits are word characters. -/
theorem isWordChar_of_isDigit (c : Char) (h : c.isDigit) : isWordChar c = true := by
  simp [isWordChar, Char.isAlphanum, h]

/-- Characterization of the `Cheer` pattern body. -/
theorem cheerTail_eq_some_iff (t : Str) (n : Nat) :
    cheerTail t = some n ↔
      ∃ D s, t = ("Cheer").toList ++ D ++ s ∧ D ≠ [] ∧ (∀ c ∈ D, c.isDigit) ∧
        (s = [] ∨ ∃ c u, s = c :: u ∧ isWordChar c = false) ∧ n = digitsToNat D := by
  constructor
  · intro h
    rcases h1 : matchLit ("Cheer").toList t with _ | s1
    · simp only [cheerTail, h1, Option.bind_eq_bind, Option.none_bind] at h
      exact Option.noConfusion h
    · rcases hr : takeDigitRun s1 with ⟨run, rest⟩
      have hspec := takeDigitRun_spec s1
      rw [hr] at hspec
      have hts1 := (matchLit_eq_some_iff _ _ _).mp h1
      cases run with
      | nil =>
        simp only [cheerTail, h1, Option.bind_eq_bind, Option.some_bind, hr] at h
        simp at h
      | cons r0 run' =>
        cases rest with
        | nil =>
          simp only [cheerTail, h1, Option.bind_eq_bind, Option.some_bind, hr,
            List.isEmpty_cons] at h
          rw [if_neg (by simp)] at h
          injection h with h2
          refine ⟨r0 :: run', [], ?_, by simp, hspec.1, Or.inl rfl, h2.symm⟩
          rw [hts1, hspec.2.1]
          simp
        | cons c u =>
          simp only [cheerTail, h1, Option.bind_eq_bind, Option.some_bind, hr,
            List.isEmpty_cons] at h
          rw [if_neg (by simp)] at h
          by_cases hw : isWordChar c
          · rw [if_pos hw] at h
            exact Option.noConfusion h
          · rw [if_neg hw] at h
            injection h with h2
            refine ⟨r0 :: run', c :: u, ?_, by simp, hspec.1,
              Or.inr ⟨c, u, rfl, by simpa using hw⟩, h2.symm⟩
            rw [hts1, hspec.2.1]
            simp
  · rintro ⟨D, s, ht, hne, hdig, hbnd, hn⟩
    subst ht; subst hn
    have hassoc : ("Cheer").toList ++ D ++ s = ("Cheer").toList ++ (D ++ s) := by simp
    rw [hassoc]
    have hs' : s = [] ∨ ∃ c u, s = c :: u ∧ c.isDigit = false := by
      rcases hbnd with h | ⟨c, u, h, hw⟩
      · exact Or.inl h
      · refine Or.inr ⟨c, u, h, ?_⟩
        by_cases hd : c.isDigit
        · rw [isWordChar_of_isDigit c hd] at hw; exact Bool.noConfusion hw
        · simpa using hd
    simp only [cheerTail, matchLit_self_append, Option.bind_eq_bind, Option.some_bind,
      takeDigitRun_append D s hdig hs']
    rw [if_neg (by simpa using hne)]
    rcases hbnd with h | ⟨c, u, h, hw⟩
    · subst h; rfl
    · subst h
      show (if isWordChar c = true then none else some (digitsToNat D)) =
        some (digitsToNat D)
      rw [if_neg (by simp [hw])]

/-- After reading a chunk that ends in `c`, the preceding character is `c`. -/
theorem prevCharAt_append_singleton (prev : Option Char) (p : Str) (c : Char) :
    prevCharAt prev (p ++ [c]) = some c := by
  induction p generalizing prev with
  | nil => rfl
  | cons a p ih => exact ih (some a)

/-- The opening word boundary of a search started at the string head holds
exactly when the consumed prefix is empty or ends in a non-word character. -/
theorem boundaryOk_prevCharAt_none_iff (p : Str) :
    boundaryOk (prevCharAt none p) = true ↔
      (p = [] ∨ ∃ q c, p = q ++ [c] ∧ isWordChar c = false) := by
  rcases List.eq_nil_or_concat p with h | ⟨q, c, h⟩
  · subst h; simp [prevCharAt, boundaryOk]
  · rw [List.concat_eq_append] at h
    subst h
    rw [prevCharAt_append_singleton]
    constructor
    · intro hb
      refine Or.inr ⟨q, c, rfl, ?_⟩
      simpa [boundaryOk] using hb
    · intro hb
      rcases hb with h | ⟨q', c', heq, hw⟩
      · exact absurd h (by simp)
      · have : c' = c := by
          have h1 := congrArg List.getLast? heq
          rw [List.getLast?_concat, List.getLast?_concat] at h1
          exact (Option.some.injEq _ _).mp h1.symm
        subst this
        simp [boundaryOk, hw]

/-- Step lemma: when the body finds nothing at the current position, the
bits search advances with the current head as the new previous character. -/
theorem bitsSearchAux_cons_step (prev : Option Char) (c : Char) (s : Str)
    (h : boundaryOk prev = true → cheerTail (c :: s) = none) :
    bitsSearchAux prev (c :: s) = bitsSearchAux (some c) s := by
  by_cases hbp : boundaryOk prev = true
  · simp [bitsSearchAux, hbp, h hbp]
  · simp [bitsSearchAux, hbp]

/-- Step lemma: a body match at the current position is returned at once. -/
theorem bitsSearchAux_cons_found (prev : Option Char) (c : Char) (s : Str) (v : Nat)
    (hbp : boundaryOk prev = true) (hct : cheerTail (c :: s) = some v) :
    bitsSearchAux prev (c :: s) = some v := by
  simp [bitsSearchAux, hbp, hct]

/-- The bits search fails exactly when the body fails at every position
whose opening word boundary holds. -/
theorem bitsSearchAux_eq_none_iff : ∀ (s : Str) (prev : Option Char),
    bitsSearchAux prev s = none ↔
      ∀ p t, s = p ++ t → boundaryOk (prevCharAt prev p) = true → cheerTail t = none := by
  intro s
  induction s with
  | nil =>
    intro prev
    constructor
    · intro _ p t hpt _
      rcases List.append_eq_nil.mp hpt.symm with ⟨hp, ht⟩
      subst hp; subst ht; rfl
    · intro _
      by_cases hbp : boundaryOk prev = true
      · simp [bitsSearchAux, hbp]; rfl
      · simp [bitsSearchAux, hbp]
  | cons c s ih =>
    intro prev
    constructor
    · intro h p t hpt hb
      rcases hct : cheerTail (c :: s) with _ | v
      · have hstep := bitsSearchAux_cons_step prev c s (fun _ => hct)
        rw [hstep] at h
        cases p with
        | nil =>
          rw [List.nil_append] at hpt
          rw [← hpt]; exact hct
        | cons a p' =>
          rw [List.cons_append] at hpt
          injection hpt with h1 h2
          subst h1
          exact (ih (some c)).mp h p' t h2 hb
      · by_cases hbp : boundaryOk prev = true
        · rw [bitsSearchAux_cons_found prev c s v hbp hct] at h
          exact Option.noConfusion h
        · have hstep := bitsSearchAux_cons_step prev c s (fun hx => absurd hx hbp)
          rw [hstep] at h
          cases p with
          | nil =>
            rw [prevCharAt] at hb
            exact absurd hb hbp
          | cons a p' =>
            rw [List.cons_append] at hpt
            injection hpt with h1 h2
            subst h1
            exact (ih (some c)).mp h p' t h2 hb
    · intro h
      have h0 : boundaryOk prev = true → cheerTail (c :: s) = none := by
        intro hbp
        exact h [] (c :: s) rfl (by rw [prevCharAt]; exact hbp)
      rw [bitsSearchAux_cons_step prev c s h0]
      exact (ih (some c)).mpr
        (fun p t hpt hb => h (c :: p) t (by rw [List.cons_append, hpt]) hb)

/-- Soundness of the bits search: a match comes from a position whose
opening boundary holds and where the body succeeds with the same value. -/
theorem bitsSearchAux_eq_some_sound : ∀ (s : Str) (prev : Option Char) (v : Nat),
    bitsSearchAux prev s = some v →
      ∃ p t, s = p ++ t ∧ boundaryOk (prevCharAt prev p) = true ∧
        cheerTail t = some v := by
  intro s
  induction s with
  | nil =>
    intro prev v h
    by_cases hbp : boundaryOk prev = true
    · simp [bitsSearchAux, hbp] at h
      exact absurd h (by simp [cheerTail, matchLit])
    · simp [bitsSearchAux, hbp] at h
  | cons c s ih =>
    intro prev v h
    rcases hct : cheerTail (c :: s) with _ | w
    · rw [bitsSearchAux_cons_step prev c s (fun _ => hct)] at h
      obtain ⟨p, t, hpt, hb, hctt⟩ := ih (some c) v h
      exact ⟨c :: p, t, by rw [List.cons_append, hpt], hb, hctt⟩
    · by_cases hbp : boundaryOk prev = true
      · rw [bitsSearchAux_cons_found prev c s w hbp hct] at h
        injection h with h1
        subst h1
        exact ⟨[], c :: s, rfl, by rw [prevCharAt]; exact hbp, hct⟩
      · rw [bitsSearchAux_cons_step prev c s (fun hx => absurd hx hbp)] at h
        obtain ⟨p, t, hpt, hb, hctt⟩ := ih (some c) v h
        exact ⟨c :: p, t, by rw [List.cons_append, hpt], hb, hctt⟩

/-- C6: the bits classifier returns 0 exactly on messages containing no
word-boundary-delimited `CheerN` token, and on a message containing one it
returns the digit value of such a token; it does not sum tokens — on
`Cheer50 and Cheer75` it returns the first value 50, and on
`Great play! Cheer100 nice one` it returns 100. -/
theorem bits_spec :
    (∀ msg : Str, ¬cheerDecomp msg → get_bits msg = 0) ∧
    (∀ msg : Str, cheerDecomp msg →
      ∃ p D s, msg = p ++ ("Cheer").toList ++ D ++ s ∧ D ≠ [] ∧
        (∀ c ∈ D, c.isDigit) ∧ get_bits msg = digitsToNat D) ∧
    get_bits ("Great play! Cheer100 nice one").toList = 100 ∧
    get_bits ("Cheer50 and Cheer75").toList = 50 ∧
    get_bits ("what a save!").toList = 0 := by
  refine ⟨?_, ?_, by decide, by decide, by decide⟩
  · intro msg hnd
    rcases hg : bitsSearchAux none msg with _ | n
    · rw [get_bits, hg]; rfl
    · exfalso
      obtain ⟨p, t, hpt, hb, hct⟩ := bitsSearchAux_eq_some_sound msg none n hg
      obtain ⟨D, s, hts, hne, hdig, hbnd, _⟩ := (cheerTail_eq_some_iff t n).mp hct
      refine hnd ⟨p, D, s, ?_, hne, hdig,
        (boundaryOk_prevCharAt_none_iff p).mp hb, hbnd⟩
      rw [hpt, hts]; simp
  · intro msg hdec
    rcases hg : bitsSearchAux none msg with _ | n
    · exfalso
      obtain ⟨p, D, s, hmsg, hne, hdig, hp, hs⟩ := hdec
      have hfail := (bitsSearchAux_eq_none_iff msg none).mp hg p
        (("Cheer").toList ++ D ++ s) (by rw [hmsg]; simp)
        ((boundaryOk_prevCharAt_none_iff p).mpr hp)
      have hok : cheerTail (("Cheer").toList ++ D ++ s) = some (digitsToNat D) :=
        (cheerTail_eq_some_iff _ _).mpr ⟨D, s, rfl, hne, hdig, hs, rfl⟩
      rw [hok] at hfail
      exact Option.noConfusion hfail
    · obtain ⟨p', t', hpt', hb', hct'⟩ := bitsSearchAux_eq_some_sound msg none n hg
      obtain ⟨D', s', hts', hne', hdig', _, hn'⟩ := (cheerTail_eq_some_iff t' n).mp hct'
      refine ⟨p', D', s', ?_, hne', hdig', ?_⟩
      · rw [hpt', hts']; simp
      · rw [get_bits, hg, hn']; rfl

/-- C6 witness: the no-token branch applied at a concrete message that is
too short to contain a `Cheer` token. -/
theorem bits_spec_witness : get_bits ("gg").toList = 0 :=
  bits_spec.1 ("gg").toList (by
    rintro ⟨p, D, s, hmsg, hne, _, _, _⟩
    have hl := congrArg List.length hmsg
    have l0 : ("gg").toList.length = 2 := by decide
    have l1 : ("Cheer").toList.length = 5 := by decide
    simp only [List.length_append, l1] at hl
    rw [l0] at hl
    have hD : 1 ≤ D.length := List.length_pos.mpr hne
    omega)

/-- Splitting at the first comma of a prepared comma-free field. -/
theorem breakComma_append (t r : Str) (ht : ',' ∉ t) :
    breakComma (t ++ ',' :: r) = (t, some r) := by
  induction t with
  | nil => simp [breakComma]
  | cons c t ih =>
    have hc : c ≠ ',' := fun h => ht (h ▸ List.mem_cons_self c t)
    rw [List.cons_append, breakComma, if_neg hc,
      ih (fun h => ht (List.mem_cons_of_mem c h))]

/-- One split step of Python `split(',', n+1)` at a comma-free first field. -/
theorem pySplitComma_succ_append (n : Nat) (t r : Str) (ht : ',' ∉ t) :
    pySplitComma (n + 1) (t ++ ',' :: r) = t :: pySplitComma n r := by
  simp only [pySplitComma, breakComma_append t r ht]

/-- C7: `read_csv` processes every data row by splitting the line on its
first three commas only — a message field containing commas stays one
field — and strips exactly the one-layer `"` + `"\n` wrapper of the message
field by discarding its first character and its last two; the message
content itself (escaped quotes included) is kept verbatim. -/
theorem read_csv_split_and_unquote :
    (∀ (header : Str) (dataLines : List Str) (hs : List Str) (rows : List (List Str)),
      read_csv (header :: dataLines) = some (hs, rows) →
      hs = updateLast pyStrip (pySplitComma 3 header) ∧
      rows = dataLines.map (fun l => updateLast pySlice1m2 (pySplitComma 3 l))) ∧
    (∀ t u x m : Str, ',' ∉ t → ',' ∉ u → ',' ∉ x →
      pySplitComma 3 (t ++ ',' :: (u ++ ',' :: (x ++ ',' :: m))) = [t, u, x, m]) ∧
    (∀ m : Str, pySlice1m2 ('"' :: (m ++ ['"', '\n'])) = m) ∧
    (∀ t u x m : Str, ',' ∉ t → ',' ∉ u → ',' ∉ x →
      updateLast pySlice1m2
          (pySplitComma 3 (t ++ ',' :: (u ++ ',' :: (x ++ ',' :: ('"' :: (m ++ ['"', '\n'])))))) =
        [t, u, x, m]) := by
  have hsplit : ∀ t u x m : Str, ',' ∉ t → ',' ∉ u → ',' ∉ x →
      pySplitComma 3 (t ++ ',' :: (u ++ ',' :: (x ++ ',' :: m))) = [t, u, x, m] := by
    intro t u x m ht hu hx
    rw [pySplitComma_succ_append 2 t _ ht, pySplitComma_succ_append 1 u _ hu,
      pySplitComma_succ_append 0 x _ hx]
    rfl
  have hslice : ∀ m : Str, pySlice1m2 ('"' :: (m ++ ['"', '\n'])) = m := by
    intro m
    rw [pySlice1m2]
    have hlen : ('"' :: (m ++ ['"', '\n'])).length - 3 = m.length := by simp
    rw [hlen]
    show (m ++ ['"', '\n']).take m.length = m
    exact List.take_left m ['"', '\n']
  refine ⟨?_, hsplit, hslice, ?_⟩
  · intro header dataLines hs rows h
    simp only [read_csv, List.map_cons] at h
    rw [Option.some.injEq, Prod.mk.injEq] at h
    exact ⟨h.1.symm, by rw [← h.2, List.map_map]; rfl⟩
  · intro t u x m ht hu hx
    rw [hsplit t u x ('"' :: (m ++ ['"', '\n'])) ht hu hx]
    show [t, u, x, pySlice1m2 ('"' :: (m ++ ['"', '\n']))] = [t, u, x, m]
    rw [hslice m]

/-- C7 witness: a concrete data row whose message contains a comma and
escaped quotes; the row splits into four fields and the message survives
un-quoting verbatim. -/
theorem read_csv_split_and_unquote_witness :
    updateLast pySlice1m2
        (pySplitComma 3 (("5").toList ++ ',' :: (("bob").toList ++ ',' ::
          (("c").toList ++ ',' ::
            ('"' :: ((("hi, \"\"you\"\"").toList) ++ ['"', '\n'])))))) =
      [("5").toList, ("bob").toList, ("c").toList, ("hi, \"\"you\"\"").toList] :=
  read_csv_split_and_unquote.2.2.2 ("5").toList ("bob").toList ("c").toList
    ("hi, \"\"you\"\"").toList (by decide) (by decide) (by decide)

/-- A successful per-file summary carries the chat id extracted from that
file's name. -/
theorem chat_id_of_ok (fn : Str) (events : List ChatEvent) (s : StreamSummary)
    (h : get_stream_summary fn events = Except.ok s) :
    searchChatId fn = some s.chat_id := by
  cases events with
  | nil =>
    rw [get_stream_summary, if_pos (by decide)] at h
    exact Except.noConfusion h
  | cons e es =>
    rw [get_stream_summary, if_neg (by simp)] at h
    rcases hc : searchChatId fn with _ | cid
    · simp only [hc] at h
      exact Except.noConfusion h
    · simp only [hc] at h
      rcases hm : num_messages_per_user (e :: es) with e' | mpu
      · simp only [hm] at h
        exact Except.noConfusion h
      · simp only [hm] at h
        rw [Except.ok.injEq] at h
        subst h
        rfl

/-- A successful folder table pairs files with summaries one to one, each
summary carrying its file's extracted chat id. -/
theorem folder_table_forall2 :
    ∀ (files : List StreamFile) (table : List StreamSummary),
      create_summary_table_from_folder files = Except.ok table →
      List.Forall₂ (fun f s => searchChatId f.name = some s.chat_id) files table := by
  intro files
  induction files with
  | nil =>
    intro table h
    simp only [create_summary_table_from_folder] at h
    rw [Except.ok.injEq] at h
    subst h
    exact List.Forall₂.nil
  | cons f fs ih =>
    intro table h
    rcases hf : get_stream_summary f.name f.events with e | s
    · simp only [create_summary_table_from_folder, hf, bind, Except.bind] at h
      exact Except.noConfusion h
    · simp only [create_summary_table_from_folder, hf, bind, Except.bind] at h
      rcases hr : create_summary_table_from_folder fs with e' | rest
      · rw [hr] at h; exact Except.noConfusion h
      · rw [hr] at h
        simp only [pure, Except.pure] at h
        rw [Except.ok.injEq] at h
        subst h
        exact List.Forall₂.cons (chat_id_of_ok f.name f.events s hf) (ih rest hr)

/-- A successful multi-folder table pairs the concatenation of all folders'
files with summaries one to one. -/
theorem multi_table_forall2 :
    ∀ (folders : List (List StreamFile)) (table : List StreamSummary),
      create_summary_table_from_multiple_folders folders = Except.ok table →
      List.Forall₂ (fun f s => searchChatId f.name = some s.chat_id)
        folders.flatten table := by
  intro folders
  induction folders with
  | nil =>
    intro table h
    simp only [create_summary_table_from_multiple_folders] at h
    rw [Except.ok.injEq] at h
    subst h
    simp
  | cons fo fos ih =>
    intro table h
    rcases hf : create_summary_table_from_folder fo with e | t1
    · simp only [create_summary_table_from_multiple_folders, hf, bind, Except.bind] at h
      exact Except.noConfusion h
    · simp only [create_summary_table_from_multiple_folders, hf, bind, Except.bind] at h
      rcases hr : create_summary_table_from_multiple_folders fos with e' | rest
      · rw [hr] at h; exact Except.noConfusion h
      · rw [hr] at h
        simp only [pure, Except.pure] at h
        rw [Except.ok.injEq] at h
        subst h
        rw [List.flatten_cons]
        exact List.rel_append (folder_table_forall2 fo t1 hf) (ih rest hr)

/-- Mean of an all-finite numpy column: nothing is skipped and the result
is the finite arithmetic mean. -/
theorem npMean_fin (l : List ℚ) (h : l ≠ []) :
    npMean (l.map NpVal.fin) = NpVal.fin (l.sum / (l.length : ℚ)) := by
  have hfilter : (l.map NpVal.fin).filter (fun v => !npIsNan v) = l.map NpVal.fin := by
    rw [List.filter_eq_self]
    intro v hv
    obtain ⟨q, _, hq⟩ := List.mem_map.mp hv
    rw [← hq]
    rfl
  have hfold : ∀ (m : List ℚ) (q : ℚ),
      (m.map NpVal.fin).foldl npAdd (NpVal.fin q) = NpVal.fin (q + m.sum) := by
    intro m
    induction m with
    | nil => intro q; simp
    | cons a m ihm =>
      intro q
      simp only [List.map_cons, List.foldl_cons, npAdd, List.sum_cons]
      rw [ihm (q + a)]
      ring_nf
  rw [npMean, hfilter]
  have hlen : (l.map NpVal.fin).length = l.length := List.length_map l NpVal.fin
  rw [hlen, if_neg (by simpa using h), hfold l 0, npDivNat,
    if_neg (by simpa using h), zero_add]

/-- C8: a successful aggregator run over folders with k files in total
produces a table of exactly k rows, each carrying its file's extracted
chat id, in file order; the average row holds the arithmetic mean of every
numeric column (the ℚ columns unconditionally, the two numpy ratio columns
whenever they are all finite) and the empty-string placeholder for the
non-numeric `chat_id` column. -/
theorem aggregator_rows_and_average :
    (∀ (folders : List (List StreamFile)) (table : List StreamSummary),
      create_summary_table_from_multiple_folders folders = Except.ok table →
      table.length = folders.flatten.length ∧
      List.Forall₂ (fun f s => searchChatId f.name = some s.chat_id)
        folders.flatten table) ∧
    (∀ table : List StreamSummary, table ≠ [] →
      (calculate_average table).chat_id = "" ∧
      (calculate_average table).messages_per_user =
        (table.map (fun s => s.messages_per_user)).sum / (table.length : ℚ) ∧
      (calculate_average table).stream_time_in_hours =
        (table.map (fun s => s.stream_time_in_hours)).sum / (table.length : ℚ) ∧
      (calculate_average table).unique_users =
        (table.map (fun s => (s.unique_users : ℚ))).sum / (table.length : ℚ) ∧
      (calculate_average table).total_messages =
        (table.map (fun s => (s.total_messages : ℚ))).sum / (table.length : ℚ) ∧
      (calculate_average table).donated_tier_1 =
        (table.map (fun s => (s.donated_tier_1 : ℚ))).sum / (table.length : ℚ) ∧
      (calculate_average table).donated_tier_2 =
        (table.map (fun s => (s.donated_tier_2 : ℚ))).sum / (table.length : ℚ) ∧
      (calculate_average table).donated_tier_3 =
        (table.map (fun s => (s.donated_tier_3 : ℚ))).sum / (table.length : ℚ) ∧
      (calculate_average table).subscribed_prime =
        (table.map (fun s => (s.subscribed_prime : ℚ))).sum / (table.length : ℚ) ∧
      (calculate_average table).subscribed_tier_1 =
        (table.map (fun s => (s.subscribed_tier_1 : ℚ))).sum / (table.length : ℚ) ∧
      (calculate_average table).subscribed_tier_2 =
        (table.map (fun s => (s.subscribed_tier_2 : ℚ))).sum / (table.length : ℚ) ∧
      (calculate_average table).subscribed_tier_3 =
        (table.map (fun s => (s.subscribed_tier_3 : ℚ))).sum / (table.length : ℚ) ∧
      (calculate_average table).total_bits =
        (table.map (fun s => (s.total_bits : ℚ))).sum / (table.length : ℚ) ∧
      (calculate_average table).revenue =
        (table.map (fun s => s.revenue)).sum / (table.length : ℚ) ∧
      (∀ qs : List ℚ, qs ≠ [] →
        table.map (fun s => s.revenue_per_hour) = qs.map NpVal.fin →
        (calculate_average table).revenue_per_hour =
          NpVal.fin (qs.sum / (qs.length : ℚ))) ∧
      (∀ qs : List ℚ, qs ≠ [] →
        table.map (fun s => s.revenue_per_user) = qs.map NpVal.fin →
        (calculate_average table).revenue_per_user =
          NpVal.fin (qs.sum / (qs.length : ℚ)))) := by
  constructor
  · intro folders table h
    have hf := multi_table_forall2 folders table h
    exact ⟨hf.length_eq.symm, hf⟩
  · intro table _
    refine ⟨rfl, by simp [calculate_average, qMean], by simp [calculate_average, qMean],
      by simp [calculate_average, qMean], by simp [calculate_average, qMean],
      by simp [calculate_average, qMean], by simp [calculate_average, qMean],
      by simp [calculate_average, qMean], by simp [calculate_average, qMean],
      by simp [calculate_average, qMean], by simp [calculate_average, qMean],
      by simp [calculate_average, qMean], by simp [calculate_average, qMean],
      by simp [calculate_average, qMean], ?_, ?_⟩
    · intro qs hqne hmap
      show npMean (table.map (fun s => s.revenue_per_hour)) = _
      rw [hmap, npMean_fin qs hqne]
    · intro qs hqne hmap
      show npMean (table.map (fun s => s.revenue_per_user)) = _
      rw [hmap, npMean_fin qs hqne]

/-- C8 witness: the aggregator over one folder holding the `summary_ex9`
file produces the one-row table with that file's chat id, and the average
row of that table carries the blank `chat_id` placeholder. -/
theorem aggregator_rows_and_average_witness :
    (calculate_average [(⟨"9", 1, 3 / 10, 1, 1, 0, 0, 0, 0, 0, 0, 0, 100, 1,
        NpVal.fin (18 / 5), NpVal.fin 1⟩ : StreamSummary)]).chat_id = "" ∧
    ([(⟨"9", 1, 3 / 10, 1, 1, 0, 0, 0, 0, 0, 0, 0, 100, 1, NpVal.fin (18 / 5),
        NpVal.fin 1⟩ : StreamSummary)] : List StreamSummary).length =
      ([[(⟨("twitch-chat-9_y.csv").toList,
          [⟨1000, ("alice").toList, ("Cheer100").toList⟩]⟩ : StreamFile)]] :
        List (List StreamFile)).flatten.length := by
  have hok : create_summary_table_from_multiple_folders
      [[(⟨("twitch-chat-9_y.csv").toList,
        [⟨1000, ("alice").toList, ("Cheer100").toList⟩]⟩ : StreamFile)]] =
      Except.ok [⟨"9", 1, 3 / 10, 1, 1, 0, 0, 0, 0, 0, 0, 0, 100, 1,
        NpVal.fin (18 / 5), NpVal.fin 1⟩] := by
    simp only [create_summary_table_from_multiple_folders,
      create_summary_table_from_folder, summary_ex9, bind, Except.bind, pure, Except.pure,
      List.append_nil]
  exact ⟨(aggregator_rows_and_average.2 _ (by simp)).1,
    (aggregator_rows_and_average.1 _ _ hok).1⟩

/-- Digits are neither the space nor the newline character. -/
theorem digit_not_space_newline (c : Char) (h : c.isDigit) : c ≠ ' ' ∧ c ≠ '\n' := by
  constructor <;> intro he <;> rw [he] at h <;> exact absurd h (by decide)

/-- The full-Prime pattern body needs a leading space. -/
theorem subPrimeTail_nonspace (c : Char) (s : Str) (hc : c ≠ ' ') :
    subPrimeTail (c :: s) = none := by
  simp only [subPrimeTail]
  rw [show (" subscribed with Prime").toList =
    ' ' :: ("subscribed with Prime").toList from by decide]
  simp [matchLit, hc]

/-- The `.*?`-scanner passes over a run of non-space, non-newline characters
when the pattern body needs a leading space. -/
theorem scanDotStar_append_nonspace (body : Str → Option α) (a b : Str)
    (ha : ∀ c ∈ a, c ≠ ' ' ∧ c ≠ '\n')
    (hbody : ∀ c s, c ≠ ' ' → body (c :: s) = none) :
    scanDotStar body (a ++ b) = scanDotStar body b := by
  induction a with
  | nil => rfl
  | cons c a ih =>
    have hc := ha c (List.mem_cons_self c a)
    rw [List.cons_append]
    simp only [scanDotStar, hbody c (a ++ b) hc.1]
    rw [if_neg hc.2]
    exact ih (fun d hd => ha d (List.mem_cons_of_mem c hd))

/-- The `.*?`-scanner passes over one space-led word whose position fails. -/
theorem scanDotStar_skip_word (body : Str → Option α) (w b : Str)
    (hw : ∀ c ∈ w, c ≠ ' ' ∧ c ≠ '\n')
    (hsp : body (' ' :: (w ++ b)) = none)
    (hbody : ∀ c s, c ≠ ' ' → body (c :: s) = none) :
    scanDotStar body ((' ' :: w) ++ b) = scanDotStar body b := by
  rw [List.cons_append]
  simp only [scanDotStar, hsp]
  rw [if_neg (by decide)]
  exact scanDotStar_append_nonspace body w b hw hbody

/-- The full-Prime pattern fails on a space followed by a digit run followed
by a space: the digits end at `" months,"` where the pattern needs
`" months!"`, and shorter starts hit a digit where `subscribed` is needed. -/
theorem subPrimeTail_space_digits (M u : Str) (hM : ∀ c ∈ M, c.isDigit) :
    subPrimeTail (' ' :: (M ++ (' ' :: u))) = none := by
  cases M with
  | nil => rfl
  | cons m M' =>
    have hm : m.isDigit := hM m (List.mem_cons_self m M')
    have hms : m ≠ 's' := by
      intro h; rw [h] at hm; exact absurd hm (by decide)
    simp only [subPrimeTail]
    rw [show (" subscribed with Prime").toList =
      ' ' :: 's' :: ("ubscribed with Prime").toList from by decide]
    simp [matchLit, hms]

/-- The full-Prime pattern body fails at the start of the whole Prime-streak
clause: everything matches up to the tenure digits, but the digits are
followed by `" months,"` where the pattern requires `" months!"`. -/
theorem subPrimeTail_streak_clause (M R : Str) (hM : ∀ c ∈ M, c.isDigit) :
    subPrimeTail ((" subscribed with Prime. They've subscribed for ").toList ++
      (M ++ ((" months,").toList ++ R))) = none := by
  have hA : (" subscribed with Prime. They've subscribed for ").toList =
      (" subscribed with Prime").toList ++
        '.' :: (" They've subscribed for ").toList := by decide
  rw [hA, List.append_assoc, List.cons_append]
  simp only [subPrimeTail, matchLit_self_append, Option.bind_eq_bind, Option.some_bind]
  simp only [matchDot]
  rw [if_neg (by decide)]
  have hOr : (" months,").toList ++ R = [] ∨
      ∃ c u, (" months,").toList ++ R = c :: u ∧ c.isDigit = false :=
    Or.inr ⟨' ', ("months,").toList ++ R, rfl, by decide⟩
  simp only [Option.some_bind, matchLit_self_append,
    takeDigitRun_append M ((" months,").toList ++ R) hM hOr]
  by_cases hE : M.isEmpty
  · rw [if_pos hE]
  · rw [if_neg hE]
    have hmm2 : matchLit ((" months!").toList) ((" months,").toList ++ R) = none := rfl
    rw [hmm2]
    rfl

/-- The bare-Prime pattern body succeeds at the start of the Prime clause. -/
theorem subPrimeBareTail_clause (X : Str) :
    subPrimeBareTail ((" subscribed with Prime. They've subscribed for ").toList ++ X) =
      some () := by
  have hA : (" subscribed with Prime. They've subscribed for ").toList =
      (" subscribed with Prime").toList ++
        '.' :: (" They've subscribed for ").toList := by decide
  rw [hA, List.append_assoc, List.cons_append]
  simp only [subPrimeBareTail, matchLit_self_append, Option.bind_eq_bind, Option.some_bind]
  simp only [matchDot]
  rw [if_neg (by decide)]
  rfl

/-- C9: a Prime subscription message that carries a streak clause matches
none of the full-Prime pattern (its `" months!"` literal fails on the
streak clause's `" months,"`) but does match the bare-Prime pattern, so the
classifier returns `("prime", 0)`: the tenure M is discarded, unlike the
Tier family where the streak pattern keeps the cumulative months. -/
theorem prime_streak_returns_zero_months (name M S : Str)
    (hname : ∀ c ∈ name, c ≠ ' ' ∧ c ≠ '\n')
    (hM : ∀ c ∈ M, c.isDigit) (hS : ∀ c ∈ S, c.isDigit) :
    get_subscription_type
      (name ++ (" subscribed with Prime. They've subscribed for ").toList ++ M ++
        (" months, currently on a ").toList ++ S ++ (" month streak!").toList) =
      ("prime", 0) := by
  have hnlname : '\n' ∉ name := fun hm => (hname '\n' hm).2 rfl
  have hbody := subPrimeTail_nonspace
  simp only [List.append_assoc]
  have h1 : subPrimeMatch
      (name ++ ((" subscribed with Prime. They've subscribed for ").toList ++
        (M ++ ((" months, currently on a ").toList ++
          (S ++ (" month streak!").toList))))) = none := by
    rw [subPrimeMatch]
    rw [scanDotStar_append_nonspace subPrimeTail name _ hname hbody]
    rw [show (" subscribed with Prime. They've subscribed for ").toList =
      (' ' :: ("subscribed").toList) ++ ((' ' :: ("with").toList) ++
        ((' ' :: ("Prime.").toList) ++ ((' ' :: ("They've").toList) ++
          ((' ' :: ("subscribed").toList) ++ ((' ' :: ("for").toList) ++ [' '])))))
      from by decide]
    simp only [List.append_assoc]
    have hsp1 : subPrimeTail (' ' :: (("subscribed").toList ++
        ((' ' :: ("with").toList) ++ ((' ' :: ("Prime.").toList) ++
          ((' ' :: ("They've").toList) ++ ((' ' :: ("subscribed").toList) ++
            ((' ' :: ("for").toList) ++ ([' '] ++ (M ++
              ((" months, currently on a ").toList ++
                (S ++ (" month streak!").toList))))))))))) = none :=
      subPrimeTail_streak_clause M ((" currently on a ").toList ++
        (S ++ (" month streak!").toList)) hM
    rw [scanDotStar_skip_word subPrimeTail _ _ (by decide) hsp1 hbody]
    rw [scanDotStar_skip_word subPrimeTail _ _ (by decide) (by rfl) hbody]
    rw [scanDotStar_skip_word subPrimeTail _ _ (by decide) (by rfl) hbody]
    rw [scanDotStar_skip_word subPrimeTail _ _ (by decide) (by rfl) hbody]
    rw [scanDotStar_skip_word subPrimeTail _ _ (by decide) (by rfl) hbody]
    rw [scanDotStar_skip_word subPrimeTail _ _ (by decide) (by rfl) hbody]
    rw [List.singleton_append]
    have hx : subPrimeTail (' ' :: (M ++ ((" months, currently on a ").toList ++
        (S ++ (" month streak!").toList)))) = none :=
      subPrimeTail_space_digits M
        (("months, currently on a ").toList ++ (S ++ (" month streak!").toList)) hM
    simp only [scanDotStar, hx]
    rw [if_neg (by decide)]
    rw [scanDotStar_append_nonspace subPrimeTail M _
      (fun c hc => digit_not_space_newline c (hM c hc)) hbody]
    rw [show (" months, currently on a ").toList =
      (' ' :: ("months,").toList) ++ ((' ' :: ("currently").toList) ++
        ((' ' :: ("on").toList) ++ ((' ' :: ("a").toList) ++ [' '])))
      from by decide]
    simp only [List.append_assoc]
    rw [scanDotStar_skip_word subPrimeTail _ _ (by decide) (by rfl) hbody]
    rw [scanDotStar_skip_word subPrimeTail _ _ (by decide) (by rfl) hbody]
    rw [scanDotStar_skip_word subPrimeTail _ _ (by decide) (by rfl) hbody]
    rw [scanDotStar_skip_word subPrimeTail _ _ (by decide) (by rfl) hbody]
    rw [List.singleton_append]
    have hx2 : subPrimeTail (' ' :: (S ++ (" month streak!").toList)) = none :=
      subPrimeTail_space_digits S (("month streak!").toList) hS
    simp only [scanDotStar, hx2]
    rw [if_neg (by decide)]
    rw [scanDotStar_append_nonspace subPrimeTail S _
      (fun c hc => digit_not_space_newline c (hS c hc)) hbody]
    decide
  have h2 : subPrimeBareMatch
      (name ++ ((" subscribed with Prime. They've subscribed for ").toList ++
        (M ++ ((" months, currently on a ").toList ++
          (S ++ (" month streak!").toList))))) = some () := by
    rcases hb : subPrimeBareMatch
        (name ++ ((" subscribed with Prime. They've subscribed for ").toList ++
          (M ++ ((" months, currently on a ").toList ++
            (S ++ (" month streak!").toList))))) with _ | v
    · exfalso
      rw [subPrimeBareMatch] at hb
      have hfail := (scanDotStar_eq_none_iff subPrimeBareTail _).mp hb name
        ((" subscribed with Prime. They've subscribed for ").toList ++
          (M ++ ((" months, currently on a ").toList ++
            (S ++ (" month streak!").toList)))) rfl hnlname
      rw [subPrimeBareTail_clause] at hfail
      exact Option.noConfusion hfail
    · cases v
      rfl
  simp only [get_subscription_type, h1, h2]

/-- C9 witness: the Prime-with-streak classification at a concrete name and
concrete tenure/streak values. -/
theorem prime_streak_returns_zero_months_witness :
    get_subscription_type
      (("xander").toList ++ (" subscribed with Prime. They've subscribed for ").toList ++
        ("12").toList ++ (" months, currently on a ").toList ++ ("4").toList ++
        (" month streak!").toList) = ("prime", 0) :=
  prime_streak_returns_zero_months ("xander").toList ("12").toList ("4").toList
    (by decide) (by decide) (by decide)
